import Mathlib

/-!
Shallow embedding of the photosmarter scanner protocol client
(`src/server/services/photosmart-service.ts` and `src/server/api/scan.ts`).

Modelling conventions:
* JavaScript numbers that the code only uses as integers are `Int`
  (quality, resolution, widths, heights); all arithmetic in the source
  on these values is integral.
* `undefined`/`null` become `Option`; a thrown exception or rejected
  promise becomes `Except`.
* Network transport is abstracted: each HTTP exchange is replaced by the
  response value (or injected response function) the code reads from it,
  and a transport failure is the `Except.error` case.  The cheerio/regex
  XML extraction that the code applies to response bodies is embedded
  directly for the status probes (string scanning), and at the
  decoded-field level for capabilities and the legacy job list.
-/

/-- `clamp` from `src/server/common/util.ts`:
`Math.max(min, Math.min(value, max))`. -/
def clamp (lo value hi : Int) : Int :=
  max lo (min value hi)

-- `PhotosmartScanResolutions` table.
namespace PhotosmartScanResolutions

def High : Int := 600

def Text : Int := 300

def Photo : Int := 200

def Screen : Int := 75

end PhotosmartScanResolutions

/-- `Object.values(PhotosmartScanResolutions)` in object-insertion order. -/
def photosmartScanResolutionValues : List Int :=
  [PhotosmartScanResolutions.High, PhotosmartScanResolutions.Text,
   PhotosmartScanResolutions.Photo, PhotosmartScanResolutions.Screen]

-- `PhotosmartScanQualities` table.
namespace PhotosmartScanQualities

def Low : Int := 25

def Medium : Int := 65

def High : Int := 85

def Maximum : Int := 100

end PhotosmartScanQualities

/-- A width/height pair (the `dimension` option). -/
structure Dimension where
  width : Int
  height : Int
deriving DecidableEq, Repr

-- `PhotosmartScanDimensions` table.
namespace PhotosmartScanDimensions

def A4 : Dimension := ⟨2480, 3508⟩

def Letter : Dimension := ⟨2550, 3300⟩

end PhotosmartScanDimensions

/-- `PhotosmartScanOptions`: every field optional on input.  The TypeScript
`type` and `colorMode` fields are string unions, but the API layer passes the
raw form value through an unchecked cast, so they are modelled as plain
strings. -/
structure PhotosmartScanOptions where
  resolution : Option Int
  dimension : Option Dimension
  colorMode : Option String
  type : Option String
  quality : Option Int
deriving DecidableEq, Repr

/-- `Required<PhotosmartScanOptions>`: the normalized options. -/
structure PhotosmartScanOptionsReq where
  resolution : Int
  dimension : Dimension
  type : String
  quality : Int
  colorMode : String
deriving DecidableEq, Repr

/-- The normalization block at the top of `PhotosmartService.scan`
(photosmart-service.ts lines 161-171): `??`-defaults plus the quality
clamp into [0, 100]. -/
def normalizeOptions (options : PhotosmartScanOptions) : PhotosmartScanOptionsReq :=
  { resolution := options.resolution.getD PhotosmartScanResolutions.Text
    dimension := options.dimension.getD PhotosmartScanDimensions.A4
    type := options.type.getD "PDF"
    quality := clamp 0 (options.quality.getD PhotosmartScanQualities.Maximum) 100
    colorMode := options.colorMode.getD "Color" }

/-- `PhotosmartScanResult`: raw bytes plus optional inferred extension. -/
structure PhotosmartScanResult where
  extension : Option String
  data : List Nat
deriving DecidableEq, Repr

deriving instance DecidableEq for Except

/-- Instrumented outcome of one `PhotosmartService.scan` run: how many times
each submitter was invoked, and the final outcome. -/
structure ServiceScanRun where
  esclCalls : Nat
  legacyCalls : Nat
  outcome : Except String PhotosmartScanResult
deriving DecidableEq, Repr

namespace PhotosmartService

/-- `PhotosmartService.scan` (photosmart-service.ts lines 160-184):
normalize, try the eSCL submitter; on failure rethrow when the normalized
type is PDF, otherwise run the legacy submitter and return its outcome.
The two submitters are injected as functions from the normalized options
to their outcome; the run records how often each was invoked. -/
def scan (escl legacy : PhotosmartScanOptionsReq → Except String PhotosmartScanResult)
    (options : PhotosmartScanOptions) : ServiceScanRun :=
  let normalizedOptions := normalizeOptions options
  match escl normalizedOptions with
  | Except.ok r => ⟨1, 0, Except.ok r⟩
  | Except.error e =>
    if normalizedOptions.type = "PDF" then
      ⟨1, 0, Except.error e⟩
    else
      match legacy normalizedOptions with
      | Except.ok r => ⟨1, 1, Except.ok r⟩
      | Except.error e2 => ⟨1, 1, Except.error e2⟩

end PhotosmartService

/-! ### String scanning helpers (regex / cheerio extraction) -/

/-- The characters of the literal `<pwg:State>` open tag. -/
def pwgOpenTag : List Char := "<pwg:State>".toList

/-- The characters of the literal `</pwg:State>` close tag. -/
def pwgCloseTag : List Char := "</pwg:State>".toList

/-- One attempt of the regex `/<pwg:State>([^<]+)<\/pwg:State>/` anchored at
the head of `cs`: the open tag, then a nonempty run of characters other than
`<` (the capture), then the close tag. -/
def pwgTryAt (cs : List Char) : Option String :=
  if pwgOpenTag.isPrefixOf cs then
    let rest := cs.drop pwgOpenTag.length
    let tok := rest.takeWhile (fun c => c ≠ '<')
    let after := rest.dropWhile (fun c => c ≠ '<')
    if !tok.isEmpty && pwgCloseTag.isPrefixOf after then
      some (String.mk tok)
    else
      none
  else
    none

/-- Scan for the first match of the `pwg:State` regex, as
`response.data.match(...)` does. -/
def pwgSearch : List Char → Option String
  | [] => none
  | c :: cs =>
    match pwgTryAt (c :: cs) with
    | some t => some t
    | none => pwgSearch cs

/-- The capture group of `/<pwg:State>([^<]+)<\/pwg:State>/` applied to a
response body, `none` when the regex does not match. -/
def matchPwgState (body : String) : Option String :=
  pwgSearch body.toList

/-- The characters of the literal `<ScannerState>` open tag. -/
def scannerStateOpenTag : List Char := "<ScannerState>".toList

/-- Text of a `ScannerState` element starting at the head of `cs`, if any. -/
def scannerStateAt (cs : List Char) : Option String :=
  if scannerStateOpenTag.isPrefixOf cs then
    some (String.mk ((cs.drop scannerStateOpenTag.length).takeWhile (fun c => c ≠ '<')))
  else
    none

/-- Scan for the first `ScannerState` element. -/
def scannerStateSearch : List Char → Option String
  | [] => none
  | c :: cs =>
    match scannerStateAt (c :: cs) with
    | some t => some t
    | none => scannerStateSearch cs

/-- `$('ScannerState').first().text()` via cheerio (modelled for simple leaf
elements): the text of the first `ScannerState` element, or the empty string
when the document has none — cheerio's `.text()` on an empty selection is
`''`. -/
def scannerStateText (body : String) : String :=
  (scannerStateSearch body.toList).getD ""

namespace PhotosmartService

/-- The legacy half of `PhotosmartService.status` (photosmart-service.ts
lines 146-157): on a successful GET of `/Scan/Status` the raw
`ScannerState` text is returned coerced (`status as PhotosmartStatus`,
unvalidated — it may be any string, including the empty string); on a
transport failure the result is `undefined`. -/
def statusLegacy (legacy : Except Unit String) : Option String :=
  match legacy with
  | Except.ok body => some (scannerStateText body)
  | Except.error _ => none

/-- `PhotosmartService.status` (photosmart-service.ts lines 130-158).
`modern` is the outcome of the GET of `/eSCL/ScannerStatus` (error =
transport failure), `legacy` the outcome of the GET of `/Scan/Status`.
A successful modern response is matched against the `pwg:State` regex:
`Idle` maps to `Idle`, any other token to `BusyWithScanJob`.  When the
modern probe throws or does not match, the legacy probe's result is
returned via `statusLegacy`.  Each probe is attempted at most once. -/
def status (modern legacy : Except Unit String) : Option String :=
  match modern with
  | Except.ok body =>
    match matchPwgState body with
    | some tok => some (if tok = "Idle" then "Idle" else "BusyWithScanJob")
    | none => statusLegacy legacy
  | Except.error _ => statusLegacy legacy

end PhotosmartService

example : PhotosmartService.status
    (Except.ok "<pwg:State>Idle</pwg:State>") (Except.error ()) = some "Idle" := by
  decide

example : PhotosmartService.status
    (Except.ok "<x><pwg:State>Processing</pwg:State></x>") (Except.error ())
    = some "BusyWithScanJob" := by
  decide

example : PhotosmartService.status (Except.error ()) (Except.error ()) = none := by
  decide

example : PhotosmartService.status (Except.error ())
    (Except.ok "<ScannerState>Idle</ScannerState>") = some "Idle" := by
  decide

/-! ### Integer parsing (`Number.parseInt(s, 10)`) -/

/-- Digits-to-value accumulator for a run of decimal digit characters. -/
def digitsToNat (ds : List Char) : Nat :=
  ds.foldl (fun acc c => acc * 10 + (c.toNat - Char.toNat '0')) 0

/-- The leading run of decimal digits, `none` when there is none (the
`NaN` case of `parseInt`). -/
def digitsPrefixVal (cs : List Char) : Option Nat :=
  let ds := cs.takeWhile Char.isDigit
  if ds.isEmpty then none else some (digitsToNat ds)

/-- `Number.parseInt(s, 10)`: skip leading whitespace, optional sign, then
the longest leading digit run; `none` models `NaN`.  (The source always
calls `.trim()` on the text first; `parseInt` itself also skips leading
whitespace, so the two compose to exactly this.) -/
def parseIntLeading (s : String) : Option Int :=
  match s.toList.dropWhile Char.isWhitespace with
  | '-' :: rest => (digitsPrefixVal rest).map (fun n => -(n : Int))
  | '+' :: rest => (digitsPrefixVal rest).map (fun n => (n : Int))
  | cs => (digitsPrefixVal cs).map (fun n => (n : Int))

/-- A match of `^\d+$` converted to its numeric value: a nonempty all-digit
string parses, anything else does not. -/
def digitsOnlyNat (s : String) : Option Nat :=
  let cs := s.toList
  if !cs.isEmpty && cs.all Char.isDigit then some (digitsToNat cs) else none

/-- `s.trim()` on a list-of-characters representation. -/
def trimString (s : String) : String :=
  String.mk (((s.toList.dropWhile Char.isWhitespace).reverse.dropWhile
    Char.isWhitespace).reverse)

/-- `s.toLowerCase()` on a list-of-characters representation. -/
def lowerString (s : String) : String :=
  String.mk (s.toList.map Char.toLower)

example : parseIntLeading "300" = some 300 := by decide

example : parseIntLeading " 42abc" = some 42 := by decide

example : parseIntLeading "" = none := by decide

example : parseIntLeading "abc" = none := by decide

/-! ### Capability resolver -/

/-- A `value`/`label` pair as produced for formats and color modes. -/
structure LabeledValue where
  value : String
  label : String
deriving DecidableEq, Repr

/-- One entry of the produced `dimensions` capability list. -/
structure DimensionEntry where
  value : String
  label : String
  width : Int
  height : Int
deriving DecidableEq, Repr

/-- One entry of the static `ScanDimensionPresets` table. -/
structure DimensionPreset where
  key : String
  label : String
  width : Int
  height : Int
deriving DecidableEq, Repr

/-- The static `ScanDimensionPresets` table (photosmart-service.ts
lines 24-55). -/
def ScanDimensionPresets : List DimensionPreset :=
  [⟨"A4", "A4 (210x297 mm)", 2480, 3508⟩,
   ⟨"Letter", "Letter (8.5x11 in)", 2550, 3300⟩,
   ⟨"4x6", "4x6 in", 1200, 1800⟩,
   ⟨"5x7", "5x7 in", 1500, 2100⟩,
   ⟨"10x15", "10x15 cm", 1181, 1772⟩]

/-- `PhotosmartScanCapabilities`. -/
structure PhotosmartScanCapabilities where
  formats : List LabeledValue
  colorModes : List LabeledValue
  resolutions : List Int
  dimensions : List DimensionEntry
deriving DecidableEq, Repr

/-- The preset-to-entry projection used for both the fallback dimensions and
the filtered decoded dimensions: value is `width` `x` `height`. -/
def presetToEntry (preset : DimensionPreset) : DimensionEntry :=
  ⟨toString preset.width ++ "x" ++ toString preset.height,
   preset.label, preset.width, preset.height⟩

/-- Ascending sort by the usual order, as `sort((a, b) => a - b)` on a
duplicate-free array. -/
def sortIntAsc (l : List Int) : List Int :=
  l.insertionSort (fun a b => a ≤ b)

namespace PhotosmartService

/-- `PhotosmartService.getFallbackCapabilities` (photosmart-service.ts
lines 369-390). -/
def getFallbackCapabilities : PhotosmartScanCapabilities :=
  { formats := [⟨"PDF", "PDF"⟩, ⟨"JPEG", "JPEG"⟩]
    colorModes := [⟨"Color", "Color"⟩, ⟨"Grayscale", "Grayscale"⟩,
                   ⟨"BlackAndWhite", "Black and white"⟩]
    resolutions := sortIntAsc photosmartScanResolutionValues
    dimensions := ScanDimensionPresets.map presetToEntry }

end PhotosmartService

/-- The element texts that `fetchEsclCapabilities` extracts from the
capabilities XML with cheerio, in document order: the texts of every
`scan:ColorMode`, of every `scan:DiscreteResolution scan:XResolution`, of
every `scan:DocumentFormatExt`, and the text of the first
`scan:MinWidth` / `scan:MaxWidth` / `scan:MinHeight` / `scan:MaxHeight`
(the empty string when the element is absent, as `.text()` of an empty
selection). -/
structure DecodedCaps where
  colorModeTexts : List String
  resolutionTexts : List String
  formatTexts : List String
  minWidthText : String
  maxWidthText : String
  minHeightText : String
  maxHeightText : String
deriving DecidableEq, Repr

/-- Presence flags for the `colorModes` map keyed by canonical value:
`RGB24` sets `Color`, `Grayscale8` sets `Grayscale`, `BlackAndWhite1` sets
`BlackAndWhite`; any other token is ignored. -/
structure ColorFlags where
  color : Bool
  gray : Bool
  bw : Bool
deriving DecidableEq, Repr

/-- Builds the `colorModes` map of `fetchEsclCapabilities` (as presence
flags; the map's labels are fixed per key). -/
def decodeColorFlags (texts : List String) : ColorFlags :=
  texts.foldl
    (fun f t =>
      let value := trimString t
      if value = "RGB24" then { f with color := true }
      else if value = "Grayscale8" then { f with gray := true }
      else if value = "BlackAndWhite1" then { f with bw := true }
      else f)
    ⟨false, false, false⟩

/-- Presence flags for the `formats` map: `application/pdf` sets `PDF`,
`image/jpeg` sets `JPEG` (compared lowercased). -/
structure FormatFlags where
  pdf : Bool
  jpeg : Bool
deriving DecidableEq, Repr

/-- Builds the `formats` map of `fetchEsclCapabilities` as presence flags. -/
def decodeFormatFlags (texts : List String) : FormatFlags :=
  texts.foldl
    (fun f t =>
      let value := lowerString (trimString t)
      if value = "application/pdf" then { f with pdf := true }
      else if value = "image/jpeg" then { f with jpeg := true }
      else f)
    ⟨false, false⟩

/-- The `resolutions` set: parse each text, skip `NaN`, keep first
occurrences (JS `Set` insertion order). -/
def decodeResolutionSet (texts : List String) : List Int :=
  (texts.filterMap parseIntLeading).dedup

/-- `Number.MAX_SAFE_INTEGER`. -/
def maxSafeInteger : Int := 2 ^ 53 - 1

/-- `formatOrder.filter((v) => formats.has(v)).map(...)` over the fixed
order `['PDF', 'JPEG']` with fixed labels. -/
def formatsFromFlags (f : FormatFlags) : List LabeledValue :=
  (if f.pdf then [⟨"PDF", "PDF"⟩] else [])
    ++ (if f.jpeg then [⟨"JPEG", "JPEG"⟩] else [])

/-- `colorOrder.filter((v) => colorModes.has(v)).map(...)` over the fixed
order `['Color', 'Grayscale', 'BlackAndWhite']` with the labels stored in
the map. -/
def colorModesFromFlags (f : ColorFlags) : List LabeledValue :=
  (if f.color then [⟨"Color", "Color"⟩] else [])
    ++ (if f.gray then [⟨"Grayscale", "Grayscale"⟩] else [])
    ++ (if f.bw then [⟨"BlackAndWhite", "Black and white"⟩] else [])

namespace PhotosmartService

/-- The dimension computation of `PhotosmartService.fetchEsclCapabilities`
(photosmart-service.ts lines 436-471): parse the min/max bounds (`NaN`
becoming 0 resp. `MAX_SAFE_INTEGER`) and filter the preset table to those
presets whose width and height both fall within the bounds. -/
def decodedDimensions (d : DecodedCaps) : List DimensionEntry :=
  let widthMin := (parseIntLeading d.minWidthText).getD 0
  let heightMin := (parseIntLeading d.minHeightText).getD 0
  let widthMax := (parseIntLeading d.maxWidthText).getD maxSafeInteger
  let heightMax := (parseIntLeading d.maxHeightText).getD maxSafeInteger
  (ScanDimensionPresets.filter
    (fun preset =>
      widthMin ≤ preset.width && preset.width ≤ widthMax
        && heightMin ≤ preset.height && preset.height ≤ heightMax)).map
    presetToEntry

/-- `PhotosmartService.fetchEsclCapabilities` (photosmart-service.ts
lines 392-503), from the cheerio-decoded element texts of a successful
response: build the color-mode/format presence maps, the resolution set,
and the bounds-filtered dimension presets, and substitute the
corresponding `fallback` field for every empty decoded field. -/
def fetchEsclCapabilities (fallback : PhotosmartScanCapabilities)
    (d : DecodedCaps) : PhotosmartScanCapabilities :=
  let colorFlags := decodeColorFlags d.colorModeTexts
  let resolutionSet := decodeResolutionSet d.resolutionTexts
  let formatFlags := decodeFormatFlags d.formatTexts
  let dimensions := decodedDimensions d
  { formats :=
      if formatFlags.pdf || formatFlags.jpeg then formatsFromFlags formatFlags
      else fallback.formats
    colorModes :=
      if colorFlags.color || colorFlags.gray || colorFlags.bw then
        colorModesFromFlags colorFlags
      else fallback.colorModes
    resolutions :=
      if 0 < resolutionSet.length then sortIntAsc resolutionSet
      else fallback.resolutions
    dimensions := if 0 < dimensions.length then dimensions else fallback.dimensions }

/-- `PhotosmartService.capabilities` (photosmart-service.ts lines 119-128):
try the eSCL fetch; on any failure (transport error, timeout — the
`Except.error` case) log and return the fallback table. -/
def capabilities (transport : Except Unit DecodedCaps) : PhotosmartScanCapabilities :=
  let fallback := getFallbackCapabilities
  match transport with
  | Except.ok d => fetchEsclCapabilities fallback d
  | Except.error _ => fallback

end PhotosmartService

example : PhotosmartService.getFallbackCapabilities.resolutions
    = [75, 200, 300, 600] := by decide

example : (PhotosmartService.capabilities
    (Except.ok ⟨["RGB24"], ["600", "300"], [], "", "", "", ""⟩)).resolutions
    = [300, 600] := by decide

/-! ### Job submitters -/

/-- `s.startsWith(p)`, modelled over character lists. -/
def strStartsWith (s p : String) : Bool :=
  p.toList.isPrefixOf s.toList

/-- The response of a job-creation POST as the code reads it: HTTP status,
status text, and the `Location` header (`none` when absent). -/
structure PostResponse where
  status : Int
  statusText : String
  location : Option String
deriving DecidableEq, Repr

/-- The response of a binary GET as the code reads it: the `content-type`
header (`none` when absent) and the bytes. -/
structure BinaryResponse where
  contentType : Option String
  data : List Nat
deriving DecidableEq, Repr

/-- `extension(contentType) || undefined` at the end of both submitters:
the mime-types lookup is an external table, injected as `mimeExt`; a
missing header or a failed lookup leave the extension absent. -/
def inferExtension (mimeExt : String → Option String)
    (contentType : Option String) : Option String :=
  match contentType with
  | some ct => mimeExt ct
  | none => none

namespace PhotosmartService

/-- `PhotosmartService.scanEscl` (photosmart-service.ts lines 186-230),
with the network abstracted: `post` is the response of the POST of the
encoded job to `/eSCL/ScanJobs`, and `fetchBin url` the response of the
binary GET of `url`.  Require 201, require a non-empty `Location` header,
resolve a non-absolute location (not starting with `http`) against the
base address, then fetch the binary from `jobUrl ++ "/NextDocument"`. -/
def scanEscl (baseUrl : String) (mimeExt : String → Option String)
    (post : PostResponse) (fetchBin : String → BinaryResponse) :
    Except String PhotosmartScanResult :=
  if post.status ≠ 201 then
    Except.error ("Failed sending eSCL scan job (" ++ toString post.status
      ++ " " ++ post.statusText ++ ")")
  else
    match post.location with
    | none => Except.error "eSCL job location could not be determined"
    | some location =>
      if location.length = 0 then
        Except.error "eSCL job location could not be determined"
      else
        let jobUrl :=
          if strStartsWith location "http" then location
          else baseUrl ++ location
        let binaryResponse := fetchBin (jobUrl ++ "/NextDocument")
        Except.ok ⟨inferExtension mimeExt binaryResponse.contentType,
                   binaryResponse.data⟩

end PhotosmartService

/-- One `ScanJob` entry of the legacy job list as cheerio extracts it in
`fetchIncompleteBinaryUrls`: the text of its first `PageState` and of its
first `BinaryURL` child (the empty string when the child is absent). -/
structure ScanJobEntry where
  pageState : String
  binaryUrl : String
deriving DecidableEq, Repr

namespace PhotosmartService

/-- The loop of `PhotosmartService.fetchIncompleteBinaryUrls`
(photosmart-service.ts lines 275-301) over the decoded `ScanJob` entries in
document order: skip entries whose `PageState` is `Completed`, push the
`BinaryURL` when it is truthy (non-empty). -/
def fetchIncompleteBinaryUrls (jobs : List ScanJobEntry) : List String :=
  jobs.foldr
    (fun job urls =>
      if job.pageState = "Completed" then urls
      else if job.binaryUrl ≠ "" then job.binaryUrl :: urls
      else urls)
    []

/-- `PhotosmartService.scanLegacy` (photosmart-service.ts lines 232-273),
with the network abstracted: `post` is the response of the POST of the
encoded legacy job to `/Scan/Jobs`, `jobs` the decoded entries of the
subsequent `/Jobs/JobList` GET, and `fetchBin url` the response of the
binary GET of `url`.  Require 201, take the first not-yet-completed binary
URL, fail when there is none, else fetch the binary from the base address
concatenated with it. -/
def scanLegacy (baseUrl : String) (mimeExt : String → Option String)
    (post : PostResponse) (jobs : List ScanJobEntry)
    (fetchBin : String → BinaryResponse) : Except String PhotosmartScanResult :=
  if post.status ≠ 201 then
    Except.error ("Failed sending scan job (" ++ toString post.status
      ++ " " ++ post.statusText ++ ")")
  else
    match (fetchIncompleteBinaryUrls jobs).head? with
    | none => Except.error "Binary URL could not be determined"
    | some binaryUrl =>
      let binaryResponse := fetchBin (baseUrl ++ binaryUrl)
      Except.ok ⟨inferExtension mimeExt binaryResponse.contentType,
                 binaryResponse.data⟩

end PhotosmartService

/-! ### Legacy job encoder -/

/-- `<tag>value</tag>`. -/
def xmlElement (tag value : String) : String :=
  "<" ++ tag ++ ">" ++ value ++ "</" ++ tag ++ ">"

namespace PhotosmartService

/-- `PhotosmartService.createScanJob` (photosmart-service.ts lines
303-334): the legacy XML job body.  Whitespace of the TypeScript template
literal is flattened to single spaces between elements; every element, its
order, and every interpolated value are kept exactly. -/
def createScanJob (options : PhotosmartScanOptionsReq) : String :=
  let format := if options.type = "PDF" then "Pdf" else "Jpeg"
  let contentType := if options.type = "PDF" then "Document" else "Photo"
  let compressionFactor := 100 - options.quality
  let color := if options.colorMode = "Color" then "Color" else "Gray"
  "<scan:ScanJob xmlns:scan=\"http://www.hp.com/schemas/imaging/con/cnx/scan/2008/08/19\" xmlns:dd=\"http://www.hp.com/schemas/imaging/con/dictionaries/1.0/\"> "
    ++ xmlElement "scan:XResolution" (toString options.resolution) ++ " "
    ++ xmlElement "scan:YResolution" (toString options.resolution) ++ " "
    ++ xmlElement "scan:XStart" "0" ++ " "
    ++ xmlElement "scan:YStart" "0" ++ " "
    ++ xmlElement "scan:Width" (toString options.dimension.width) ++ " "
    ++ xmlElement "scan:Height" (toString options.dimension.height) ++ " "
    ++ xmlElement "scan:Format" format ++ " "
    ++ xmlElement "scan:CompressionQFactor" (toString compressionFactor) ++ " "
    ++ xmlElement "scan:ColorSpace" color ++ " "
    ++ xmlElement "scan:BitDepth" "8" ++ " "
    ++ xmlElement "scan:InputSource" "Platen" ++ " "
    ++ xmlElement "scan:GrayRendering" "NTSC" ++ " "
    ++ "<scan:ToneMap> "
    ++ xmlElement "scan:Gamma" "1000" ++ " "
    ++ xmlElement "scan:Brightness" "800" ++ " "
    ++ xmlElement "scan:Contrast" "800" ++ " "
    ++ xmlElement "scan:Highlite" "179" ++ " "
    ++ xmlElement "scan:Shadow" "25" ++ " "
    ++ "</scan:ToneMap> "
    ++ xmlElement "scan:ContentType" contentType ++ " "
    ++ "</scan:ScanJob>"

end PhotosmartService

/-! ### API layer (`src/server/api/scan.ts`) -/

/-- `parseDimension` (scan.ts lines 19-42).  `value` is the raw form entry
(`none` when absent).  A falsy value (absent or empty) parses to `none`;
otherwise the regex `^(\d+)x(\d+)$` is tried (modelled as: exactly one `x`
with a nonempty all-digit string on each side), requiring both parts
positive; otherwise the
key is looked up in `PhotosmartScanDimensions`; otherwise `none`. -/
def parseDimension (value : Option String) : Option Dimension :=
  match value with
  | none => none
  | some v =>
    if v = "" then none
    else
      let regexMatch :=
        match v.splitOn "x" with
        | [a, b] =>
          match digitsOnlyNat a, digitsOnlyNat b with
          | some width, some height =>
            if 0 < width ∧ 0 < height then
              some (⟨(width : Int), (height : Int)⟩ : Dimension)
            else none
          | _, _ => none
        | _ => none
      match regexMatch with
      | some d => some d
      | none =>
        if v = "A4" then some PhotosmartScanDimensions.A4
        else if v = "Letter" then some PhotosmartScanDimensions.Letter
        else none

/-- `normalizeColorMode` (scan.ts lines 44-67): falsy input is `none`;
otherwise trim, lowercase, and match the accepted spellings. -/
def normalizeColorMode (value : Option String) : Option String :=
  match value with
  | none => none
  | some v =>
    if v = "" then none
    else
      let normalized := lowerString (trimString v)
      if normalized = "color" ∨ normalized = "rgb24" then some "Color"
      else if normalized = "grayscale" ∨ normalized = "grayscale8" then
        some "Grayscale"
      else if normalized = "black" ∨ normalized = "blackandwhite"
          ∨ normalized = "blackandwhite1" then
        some "BlackAndWhite"
      else none

/-- The form entries `scan` reads via `form.get` (`none` models `null`). -/
structure FormInput where
  type : Option String
  dimension : Option String
  resolution : Option String
  quality : Option String
  colorMode : Option String
  color : Option String
  fileName : Option String
deriving DecidableEq, Repr

/-- The option object the API builds and passes to
`photosmartService.scan` (scan.ts lines 74-87 and 103-109): the raw `type`
form value (unchecked cast), the parsed dimension defaulted to A4, the
parsed resolution with falsy (`NaN` or 0) replaced by the `Text` default,
the parsed quality (`parseInt` of the raw value, `NaN` modelled as absent),
and the normalized color mode from `colorMode` falling back to `color`. -/
def apiOptions (form : FormInput) : PhotosmartScanOptions :=
  let dimension := (parseDimension form.dimension).getD PhotosmartScanDimensions.A4
  let resolution :=
    match parseIntLeading (form.resolution.getD "") with
    | some n => if n = 0 then PhotosmartScanResolutions.Text else n
    | none => PhotosmartScanResolutions.Text
  let quality := parseIntLeading (form.quality.getD "")
  let colorMode := normalizeColorMode (form.colorMode.orElse (fun _ => form.color))
  { resolution := some resolution
    dimension := some dimension
    colorMode := colorMode
    type := form.type
    quality := quality }

/-- The `ScanResult` record the API returns. -/
structure ScanResponse where
  success : Bool
  message : String
deriving DecidableEq, Repr

/-- How many times each submitter was invoked during one API call. -/
structure SubmitCalls where
  esclCalls : Nat
  legacyCalls : Nat
deriving DecidableEq, Repr

/-- `scan` (scan.ts lines 73-139), with collaborators injected:
`statusRes` is the outcome of `photosmartService.status()`, `escl` and
`legacy` the submitter behaviours, and `saveOk` whether
`fileService.save` succeeds (the filename computation — sanitize and the
timestamp — is an out-of-scope collaborator and does not influence the
returned record).  Returns the API response together with the submitter
invocation counts. -/
def apiScan (statusRes : Option String)
    (escl legacy : PhotosmartScanOptionsReq → Except String PhotosmartScanResult)
    (saveOk : Bool) (form : FormInput) : ScanResponse × SubmitCalls :=
  if statusRes ≠ some "Idle" then
    let translatedStatus :=
      if statusRes = some "BusyWithScanJob" then "busy" else "unavailable"
    (⟨false, "Photosmart scanner is " ++ translatedStatus
        ++ ", please try again later!"⟩,
     ⟨0, 0⟩)
  else
    let run := PhotosmartService.scan escl legacy (apiOptions form)
    let calls : SubmitCalls := ⟨run.esclCalls, run.legacyCalls⟩
    match run.outcome with
    | Except.error _ =>
      (⟨false, "Failed to scan "
          ++ (if form.type = some "PDF" then "document" else "photo")⟩,
       calls)
    | Except.ok _ =>
      if saveOk then (⟨true, "Scan completed successfully"⟩, calls)
      else (⟨false, "Failed to save scanned file"⟩, calls)

example :
    (apiScan (some "BusyWithScanJob") (fun _ => Except.error "e")
      (fun _ => Except.error "e") true
      ⟨none, none, none, none, none, none, none⟩).1.message
    = "Photosmart scanner is busy, please try again later!" := by decide

example :
    (apiScan none (fun _ => Except.error "e")
      (fun _ => Except.error "e") true
      ⟨none, none, none, none, none, none, none⟩).1.message
    = "Photosmart scanner is unavailable, please try again later!" := by decide

/-! ### Concrete fixtures used to instantiate the theorems -/

/-- A sample successful scan result. -/
def sampleResult : PhotosmartScanResult := ⟨some "jpg", [7, 7, 7]⟩

/-- A submitter stub that always fails. -/
def esclFailStub : PhotosmartScanOptionsReq → Except String PhotosmartScanResult :=
  fun _ => Except.error "escl down"

/-- A submitter stub that always succeeds. -/
def legacyOkStub : PhotosmartScanOptionsReq → Except String PhotosmartScanResult :=
  fun _ => Except.ok sampleResult

/-- A mime table stub. -/
def mimeExtStub : String → Option String :=
  fun ct => if ct = "image/jpeg" then some "jpg" else none

/-- A binary fetch stub returning a JPEG payload whatever the URL. -/
def fetchBinStub : String → BinaryResponse :=
  fun _ => ⟨some "image/jpeg", [1, 2, 3]⟩

/-- Options requesting a JPEG scan, everything else defaulted. -/
def jpegOptions : PhotosmartScanOptions := ⟨none, none, none, some "JPEG", none⟩

/-- Options requesting a PDF scan, everything else defaulted. -/
def pdfOptions : PhotosmartScanOptions := ⟨none, none, none, some "PDF", none⟩

/-- Fully omitted options. -/
def emptyOptions : PhotosmartScanOptions := ⟨none, none, none, none, none⟩

/-- A form with every entry absent. -/
def emptyForm : FormInput := ⟨none, none, none, none, none, none, none⟩

/-! ### Theorems -/

/-- Zeta-reduced defining equation of `PhotosmartService.scan`. -/
theorem serviceScan_eq
    (escl legacy : PhotosmartScanOptionsReq → Except String PhotosmartScanResult)
    (options : PhotosmartScanOptions) :
    PhotosmartService.scan escl legacy options =
      match escl (normalizeOptions options) with
      | Except.ok r => ⟨1, 0, Except.ok r⟩
      | Except.error e =>
        if (normalizeOptions options).type = "PDF" then
          ⟨1, 0, Except.error e⟩
        else
          match legacy (normalizeOptions options) with
          | Except.ok r => ⟨1, 1, Except.ok r⟩
          | Except.error e2 => ⟨1, 1, Except.error e2⟩ := rfl

/-- C1: Fallback policy of `PhotosmartService.scan`: for every options
input the eSCL submitter is attempted exactly once first; if it succeeds
its result is final and the legacy submitter is never invoked; if it fails
and the normalized format is `PDF` the failure propagates and the legacy
submitter is never invoked; if it fails and the format is any other value
the legacy submitter is invoked exactly once and its outcome (success or
failure) is final. -/
theorem claim_C1_fallback_policy
    (escl legacy : PhotosmartScanOptionsReq → Except String PhotosmartScanResult)
    (options : PhotosmartScanOptions) :
    (PhotosmartService.scan escl legacy options).esclCalls = 1 ∧
    (∀ r, escl (normalizeOptions options) = Except.ok r →
      (PhotosmartService.scan escl legacy options).legacyCalls = 0 ∧
      (PhotosmartService.scan escl legacy options).outcome = Except.ok r) ∧
    (∀ e, escl (normalizeOptions options) = Except.error e →
      (normalizeOptions options).type = "PDF" →
      (PhotosmartService.scan escl legacy options).legacyCalls = 0 ∧
      (PhotosmartService.scan escl legacy options).outcome = Except.error e) ∧
    (∀ e, escl (normalizeOptions options) = Except.error e →
      (normalizeOptions options).type ≠ "PDF" →
      (PhotosmartService.scan escl legacy options).legacyCalls = 1 ∧
      (PhotosmartService.scan escl legacy options).outcome
        = legacy (normalizeOptions options)) := by
  refine ⟨?_, ?_, ?_, ?_⟩
  · rw [serviceScan_eq]
    cases escl (normalizeOptions options) with
    | ok r => rfl
    | error e =>
      dsimp only
      split
      · rfl
      · cases legacy (normalizeOptions options) <;> rfl
  · intro r h
    rw [serviceScan_eq, h]
    exact ⟨rfl, rfl⟩
  · intro e h ht
    rw [serviceScan_eq, h]
    simp [ht]
  · intro e h ht
    rw [serviceScan_eq, h]
    simp only [if_neg ht]
    cases hl : legacy (normalizeOptions options) <;> simp [hl]

/-- Witness for C1 at concrete inputs: with a failing eSCL stub, a JPEG
request falls back to the legacy submitter exactly once and returns its
success, while a PDF request never invokes the legacy submitter and
propagates the eSCL error. -/
theorem claim_C1_fallback_policy_witness :
    ((PhotosmartService.scan esclFailStub legacyOkStub jpegOptions).legacyCalls = 1 ∧
      (PhotosmartService.scan esclFailStub legacyOkStub jpegOptions).outcome
        = legacyOkStub (normalizeOptions jpegOptions)) ∧
    ((PhotosmartService.scan esclFailStub legacyOkStub pdfOptions).legacyCalls = 0 ∧
      (PhotosmartService.scan esclFailStub legacyOkStub pdfOptions).outcome
        = Except.error "escl down") := by
  refine ⟨?_, ?_⟩
  · exact (claim_C1_fallback_policy esclFailStub legacyOkStub jpegOptions).2.2.2
      "escl down" rfl (by decide)
  · exact (claim_C1_fallback_policy esclFailStub legacyOkStub pdfOptions).2.2.1
      "escl down" rfl (by decide)

/-- C2: Status gate of the API orchestrator: for every form input, when
the status probe returns anything other than `Idle` the scan terminates
immediately with a failure whose message says `busy` exactly when the
status is `BusyWithScanJob` and `unavailable` otherwise (in particular for
the unreachable/`Unknown` case), and neither submitter is invoked. -/
theorem claim_C2_status_gate (statusRes : Option String)
    (escl legacy : PhotosmartScanOptionsReq → Except String PhotosmartScanResult)
    (saveOk : Bool) (form : FormInput)
    (h : statusRes ≠ some "Idle") :
    apiScan statusRes escl legacy saveOk form =
      (⟨false, "Photosmart scanner is "
          ++ (if statusRes = some "BusyWithScanJob" then "busy" else "unavailable")
          ++ ", please try again later!"⟩,
       ⟨0, 0⟩) := by
  unfold apiScan
  rw [if_pos h]

/-- Witness for C2: an `Unknown` (undefined) status yields the
`unavailable` message with zero submitter invocations. -/
theorem claim_C2_status_gate_witness :
    apiScan none esclFailStub legacyOkStub true emptyForm =
      (⟨false, "Photosmart scanner is "
          ++ (if (none : Option String) = some "BusyWithScanJob" then "busy"
              else "unavailable")
          ++ ", please try again later!"⟩,
       ⟨0, 0⟩) :=
  claim_C2_status_gate none esclFailStub legacyOkStub true emptyForm
    (by decide)

/-- C8 is refuted at the fully-omitted options input: the normalized
quality is the `Maximum` default 100, not the `Medium` value 65 that the
claim calls a "medium default". -/
theorem claim_C8_counterexample :
    (normalizeOptions emptyOptions).quality = PhotosmartScanQualities.Maximum ∧
    (normalizeOptions emptyOptions).quality ≠ PhotosmartScanQualities.Medium := by
  constructor
  · decide
  · decide

/-- C8 (amended): for every options input, an omitted quality defaults to
the maximum (100), and the other omitted fields default to
resolution = 300, the A4 preset, format = `PDF`, and colorMode = `Color`. -/
theorem claim_C8_defaults (options : PhotosmartScanOptions) :
    (options.quality = none →
      (normalizeOptions options).quality = PhotosmartScanQualities.Maximum) ∧
    (options.resolution = none → (normalizeOptions options).resolution = 300) ∧
    (options.dimension = none →
      (normalizeOptions options).dimension = PhotosmartScanDimensions.A4) ∧
    (options.type = none → (normalizeOptions options).type = "PDF") ∧
    (options.colorMode = none → (normalizeOptions options).colorMode = "Color") := by
  refine ⟨?_, ?_, ?_, ?_, ?_⟩ <;> intro h <;>
    simp [normalizeOptions, h, clamp, PhotosmartScanQualities.Maximum,
      PhotosmartScanResolutions.Text]

/-- Witness for C8 (amended) at the fully-omitted options input. -/
theorem claim_C8_defaults_witness :
    (normalizeOptions emptyOptions).quality = PhotosmartScanQualities.Maximum ∧
    (normalizeOptions emptyOptions).resolution = 300 ∧
    (normalizeOptions emptyOptions).dimension = PhotosmartScanDimensions.A4 ∧
    (normalizeOptions emptyOptions).type = "PDF" ∧
    (normalizeOptions emptyOptions).colorMode = "Color" :=
  ⟨(claim_C8_defaults emptyOptions).1 rfl,
   (claim_C8_defaults emptyOptions).2.1 rfl,
   (claim_C8_defaults emptyOptions).2.2.1 rfl,
   (claim_C8_defaults emptyOptions).2.2.2.1 rfl,
   (claim_C8_defaults emptyOptions).2.2.2.2 rfl⟩

/-- Defining equation of `PhotosmartService.status` on a successful modern
probe. -/
theorem status_ok_eq (body : String) (legacy : Except Unit String) :
    PhotosmartService.status (Except.ok body) legacy =
      match matchPwgState body with
      | some tok => some (if tok = "Idle" then "Idle" else "BusyWithScanJob")
      | none => PhotosmartService.statusLegacy legacy := rfl

/-- C6: Status prober branches: when the modern response contains a
`pwg:State` token the prober returns `Idle` exactly for the token `Idle`
and `BusyWithScanJob` for any other token; when the modern probe throws or
no token matches, the legacy probe is consulted and a successful legacy
response's raw state token is returned coerced, unvalidated; each probe is
consulted exactly once, with no retries. -/
theorem claim_C6_status_branches (body : String) (legacy : Except Unit String) :
    (∀ tok, matchPwgState body = some tok →
      PhotosmartService.status (Except.ok body) legacy
        = some (if tok = "Idle" then "Idle" else "BusyWithScanJob")) ∧
    (matchPwgState body = none →
      PhotosmartService.status (Except.ok body) legacy
        = PhotosmartService.statusLegacy legacy) ∧
    (PhotosmartService.status (Except.error ()) legacy
      = PhotosmartService.statusLegacy legacy) ∧
    (∀ b, PhotosmartService.statusLegacy (Except.ok b)
      = some (scannerStateText b)) ∧
    (PhotosmartService.statusLegacy (Except.error ()) = none) := by
  refine ⟨?_, ?_, rfl, fun b => rfl, rfl⟩
  · intro tok h
    rw [status_ok_eq, h]
  · intro h
    rw [status_ok_eq, h]

/-- Witness for C6: an idle modern body maps to `Idle`, a busy token to
`BusyWithScanJob`, and a non-matching modern body falls through to the
legacy probe. -/
theorem claim_C6_status_branches_witness :
    PhotosmartService.status (Except.ok "<pwg:State>Idle</pwg:State>")
        (Except.error ())
      = some (if "Idle" = "Idle" then "Idle" else "BusyWithScanJob") ∧
    PhotosmartService.status (Except.ok "<pwg:State>Processing</pwg:State>")
        (Except.error ())
      = some (if "Processing" = "Idle" then "Idle" else "BusyWithScanJob") ∧
    PhotosmartService.status (Except.ok "no state here")
        (Except.ok "<ScannerState>Idle</ScannerState>")
      = PhotosmartService.statusLegacy
          (Except.ok "<ScannerState>Idle</ScannerState>") :=
  ⟨(claim_C6_status_branches "<pwg:State>Idle</pwg:State>"
      (Except.error ())).1 "Idle" (by decide),
   (claim_C6_status_branches "<pwg:State>Processing</pwg:State>"
      (Except.error ())).1 "Processing" (by decide),
   (claim_C6_status_branches "no state here"
      (Except.ok "<ScannerState>Idle</ScannerState>")).2.1 (by decide)⟩

/-- C7 is refuted: when both probes succeed but neither response contains
a state token, the prober returns the coerced empty string, not the
`Unknown` (`undefined`) value the claim requires, and that value is none
of `Idle`, `BusyWithScanJob`, `Unknown`. -/
theorem claim_C7_counterexample :
    PhotosmartService.status (Except.ok "<NoState/>") (Except.ok "<Empty/>")
        = some "" ∧
    (some "" : Option String) ≠ some "Idle" ∧
    (some "" : Option String) ≠ some "BusyWithScanJob" ∧
    (some "" : Option String) ≠ none := by
  exact ⟨by decide, by decide, by decide, by decide⟩

/-- C7 (amended): the prober's result is `Idle`, `BusyWithScanJob`, the
raw (unvalidated, possibly empty or arbitrary) state text of a successful
legacy response, or `Unknown` (`none`); `Unknown` arises exactly when the
prober falls through to a legacy probe that fails — in particular when
both probes fail. -/
theorem claim_C7_status_range (modern legacy : Except Unit String) :
    (PhotosmartService.status modern legacy = some "Idle" ∨
     PhotosmartService.status modern legacy = some "BusyWithScanJob" ∨
     (∃ b, legacy = Except.ok b ∧
       PhotosmartService.status modern legacy = some (scannerStateText b)) ∨
     (legacy = Except.error () ∧
       PhotosmartService.status modern legacy = none)) ∧
    PhotosmartService.status (Except.error ()) (Except.error ()) = none := by
  refine ⟨?_, rfl⟩
  cases modern with
  | error u =>
    cases u
    cases legacy with
    | ok b => exact Or.inr (Or.inr (Or.inl ⟨b, rfl, rfl⟩))
    | error u2 =>
      cases u2
      exact Or.inr (Or.inr (Or.inr ⟨rfl, rfl⟩))
  | ok body =>
    cases h : matchPwgState body with
    | some tok =>
      by_cases ht : tok = "Idle"
      · left
        rw [status_ok_eq, h]
        simp [ht]
      · right; left
        rw [status_ok_eq, h]
        simp [ht]
    | none =>
      cases legacy with
      | ok b =>
        refine Or.inr (Or.inr (Or.inl ⟨b, rfl, ?_⟩))
        rw [status_ok_eq, h]
        rfl
      | error u2 =>
        cases u2
        refine Or.inr (Or.inr (Or.inr ⟨rfl, ?_⟩))
        rw [status_ok_eq, h]
        rfl

/-- Field equations of `PhotosmartService.fetchEsclCapabilities`. -/
theorem fetchEscl_fields (fallback : PhotosmartScanCapabilities) (d : DecodedCaps) :
    (PhotosmartService.fetchEsclCapabilities fallback d).formats
      = (if (decodeFormatFlags d.formatTexts).pdf
            || (decodeFormatFlags d.formatTexts).jpeg then
          formatsFromFlags (decodeFormatFlags d.formatTexts)
        else fallback.formats) ∧
    (PhotosmartService.fetchEsclCapabilities fallback d).colorModes
      = (if (decodeColorFlags d.colorModeTexts).color
            || (decodeColorFlags d.colorModeTexts).gray
            || (decodeColorFlags d.colorModeTexts).bw then
          colorModesFromFlags (decodeColorFlags d.colorModeTexts)
        else fallback.colorModes) ∧
    (PhotosmartService.fetchEsclCapabilities fallback d).resolutions
      = (if 0 < (decodeResolutionSet d.resolutionTexts).length then
          sortIntAsc (decodeResolutionSet d.resolutionTexts)
        else fallback.resolutions) ∧
    (PhotosmartService.fetchEsclCapabilities fallback d).dimensions
      = (if 0 < (PhotosmartService.decodedDimensions d).length then
          PhotosmartService.decodedDimensions d
        else fallback.dimensions) :=
  ⟨rfl, rfl, rfl, rfl⟩

/-- With at least one format flag set, the projected format list is
non-empty. -/
theorem formatsFromFlags_ne_nil (f : FormatFlags)
    (h : (f.pdf || f.jpeg) = true) : formatsFromFlags f ≠ [] := by
  cases f with
  | mk p j => cases p <;> cases j <;> simp [formatsFromFlags] at h ⊢

/-- With at least one color flag set, the projected color-mode list is
non-empty. -/
theorem colorModesFromFlags_ne_nil (f : ColorFlags)
    (h : (f.color || f.gray || f.bw) = true) : colorModesFromFlags f ≠ [] := by
  cases f with
  | mk c g b => cases c <;> cases g <;> cases b <;> simp [colorModesFromFlags] at h ⊢

/-- Sorting preserves length. -/
theorem sortIntAsc_length (l : List Int) : (sortIntAsc l).length = l.length :=
  List.length_insertionSort _ l

/-- C3: The capability resolver never fails and never returns an empty
field: for every transport outcome (a failure, or a success with any
decoded fields, in particular all-empty ones) every field of the returned
capabilities is non-empty; when the decoded resolution set is empty the
returned resolutions are the fallback list `[75, 200, 300, 600]` (the
`PhotosmartScanResolutions` values sorted ascending); a transport failure
returns the whole static fallback table. -/
theorem claim_C3_capabilities_total (transport : Except Unit DecodedCaps) :
    (PhotosmartService.capabilities transport).formats ≠ [] ∧
    (PhotosmartService.capabilities transport).colorModes ≠ [] ∧
    (PhotosmartService.capabilities transport).resolutions ≠ [] ∧
    (PhotosmartService.capabilities transport).dimensions ≠ [] ∧
    (∀ d, transport = Except.ok d →
      decodeResolutionSet d.resolutionTexts = [] →
      (PhotosmartService.capabilities transport).resolutions
        = [75, 200, 300, 600]) ∧
    (transport = Except.error () →
      PhotosmartService.capabilities transport
        = PhotosmartService.getFallbackCapabilities) := by
  cases transport with
  | error u =>
    cases u
    refine ⟨by decide, by decide, by decide, by decide, ?_, fun _ => rfl⟩
    intro d hd
    cases hd
  | ok d =>
    have hc : PhotosmartService.capabilities (Except.ok d)
        = PhotosmartService.fetchEsclCapabilities
            PhotosmartService.getFallbackCapabilities d := rfl
    obtain ⟨hf, hcm, hr, hdim⟩ :=
      fetchEscl_fields PhotosmartService.getFallbackCapabilities d
    refine ⟨?_, ?_, ?_, ?_, ?_, ?_⟩
    · rw [hc, hf]
      by_cases h : ((decodeFormatFlags d.formatTexts).pdf
          || (decodeFormatFlags d.formatTexts).jpeg) = true
      · rw [if_pos h]
        exact formatsFromFlags_ne_nil _ h
      · rw [if_neg h]
        decide
    · rw [hc, hcm]
      by_cases h : ((decodeColorFlags d.colorModeTexts).color
          || (decodeColorFlags d.colorModeTexts).gray
          || (decodeColorFlags d.colorModeTexts).bw) = true
      · rw [if_pos h]
        exact colorModesFromFlags_ne_nil _ h
      · rw [if_neg h]
        decide
    · rw [hc, hr]
      by_cases h : 0 < (decodeResolutionSet d.resolutionTexts).length
      · rw [if_pos h]
        apply List.ne_nil_of_length_pos
        rw [sortIntAsc_length]
        exact h
      · rw [if_neg h]
        decide
    · rw [hc, hdim]
      by_cases h : 0 < (PhotosmartService.decodedDimensions d).length
      · rw [if_pos h]
        exact List.ne_nil_of_length_pos h
      · rw [if_neg h]
        decide
    · intro d2 hd2 hempty
      cases hd2
      rw [hc, hr, hempty]
      decide
    · intro habs
      cases habs

/-- Witness for C3 at a successful transport whose decoded fields are all
empty: every field falls back, in particular the resolutions are
`[75, 200, 300, 600]`. -/
theorem claim_C3_capabilities_total_witness :
    (PhotosmartService.capabilities
        (Except.ok ⟨[], [], [], "", "", "", ""⟩)).resolutions
      = [75, 200, 300, 600] ∧
    (PhotosmartService.capabilities
        (Except.ok ⟨[], [], [], "", "", "", ""⟩)).formats ≠ [] ∧
    PhotosmartService.capabilities (Except.error ())
      = PhotosmartService.getFallbackCapabilities :=
  ⟨(claim_C3_capabilities_total
      (Except.ok ⟨[], [], [], "", "", "", ""⟩)).2.2.2.2.1
      ⟨[], [], [], "", "", "", ""⟩ rfl (by decide),
   (claim_C3_capabilities_total (Except.ok ⟨[], [], [], "", "", "", ""⟩)).1,
   (claim_C3_capabilities_total (Except.error ())).2.2.2.2.2 rfl⟩

/-- C4: The eSCL submitter fails when the job-creation POST status is not
201 (with the status and reason in the message), fails when the `Location`
header is missing or empty, and with a 201 response whose non-empty
location does not start with `http` it prefixes the device base address
and fetches the binary from `{jobUrl}/NextDocument`, returning its bytes
and mime-derived extension. -/
theorem claim_C4_escl_submitter (baseUrl : String)
    (mimeExt : String → Option String) (post : PostResponse)
    (fetchBin : String → BinaryResponse) :
    (post.status ≠ 201 →
      PhotosmartService.scanEscl baseUrl mimeExt post fetchBin
        = Except.error ("Failed sending eSCL scan job ("
            ++ toString post.status ++ " " ++ post.statusText ++ ")")) ∧
    (post.status = 201 → (post.location = none ∨ post.location = some "") →
      PhotosmartService.scanEscl baseUrl mimeExt post fetchBin
        = Except.error "eSCL job location could not be determined") ∧
    (∀ location, post.status = 201 → post.location = some location →
      location ≠ "" → strStartsWith location "http" = false →
      PhotosmartService.scanEscl baseUrl mimeExt post fetchBin
        = Except.ok
            ⟨inferExtension mimeExt
                (fetchBin (baseUrl ++ location ++ "/NextDocument")).contentType,
             (fetchBin (baseUrl ++ location ++ "/NextDocument")).data⟩) := by
  refine ⟨?_, ?_, ?_⟩
  · intro h
    unfold PhotosmartService.scanEscl
    rw [if_pos h]
  · intro h hloc
    unfold PhotosmartService.scanEscl
    rw [if_neg (by simp [h])]
    cases hloc with
    | inl hl => rw [hl]
    | inr hl =>
      rw [hl]
      simp
  · intro location h hloc hne hhttp
    have hlen : ¬ location.length = 0 := by
      intro h0
      exact hne (String.ext (List.length_eq_zero.mp h0))
    unfold PhotosmartService.scanEscl
    rw [if_neg (by simp [h]), hloc]
    dsimp only
    rw [if_neg hlen, hhttp]
    simp

/-- Witness for C4: a non-201 POST fails with the status in the message; a
201 POST with an empty location fails; a 201 POST with a relative location
resolves it against the base address and succeeds. -/
theorem claim_C4_escl_submitter_witness :
    PhotosmartService.scanEscl "http://printer" mimeExtStub
        ⟨503, "Service Unavailable", none⟩ fetchBinStub
      = Except.error "Failed sending eSCL scan job (503 Service Unavailable)" ∧
    PhotosmartService.scanEscl "http://printer" mimeExtStub
        ⟨201, "Created", some ""⟩ fetchBinStub
      = Except.error "eSCL job location could not be determined" ∧
    PhotosmartService.scanEscl "http://printer" mimeExtStub
        ⟨201, "Created", some "/eSCL/ScanJobs/1"⟩ fetchBinStub
      = Except.ok
          ⟨inferExtension mimeExtStub
              (fetchBinStub
                ("http://printer" ++ "/eSCL/ScanJobs/1" ++ "/NextDocument")).contentType,
           (fetchBinStub
              ("http://printer" ++ "/eSCL/ScanJobs/1" ++ "/NextDocument")).data⟩ := by
  refine ⟨?_, ?_, ?_⟩
  · have := (claim_C4_escl_submitter "http://printer" mimeExtStub
      ⟨503, "Service Unavailable", none⟩ fetchBinStub).1 (by decide)
    rw [this]
    rfl
  · exact (claim_C4_escl_submitter "http://printer" mimeExtStub
      ⟨201, "Created", some ""⟩ fetchBinStub).2.1 rfl (Or.inr rfl)
  · exact (claim_C4_escl_submitter "http://printer" mimeExtStub
      ⟨201, "Created", some "/eSCL/ScanJobs/1"⟩ fetchBinStub).2.2
      "/eSCL/ScanJobs/1" rfl rfl (by decide) (by decide)

/-- C5: The legacy submitter keeps, in document order, exactly the
`BinaryURL` of every job-list entry whose `PageState` is not `Completed`
and whose `BinaryURL` is non-empty; after a successful 201 job POST it
takes the first such location (fetching the binary from the base address
concatenated with it) and fails with the binary-location error when no
such entry exists. -/
theorem claim_C5_legacy_submitter (baseUrl : String)
    (mimeExt : String → Option String) (post : PostResponse)
    (jobs : List ScanJobEntry) (fetchBin : String → BinaryResponse) :
    (PhotosmartService.fetchIncompleteBinaryUrls jobs
      = (jobs.filter
          (fun j => j.pageState ≠ "Completed" && j.binaryUrl ≠ "")).map
          (fun j => j.binaryUrl)) ∧
    (post.status = 201 →
      PhotosmartService.fetchIncompleteBinaryUrls jobs = [] →
      PhotosmartService.scanLegacy baseUrl mimeExt post jobs fetchBin
        = Except.error "Binary URL could not be determined") ∧
    (∀ u rest, post.status = 201 →
      PhotosmartService.fetchIncompleteBinaryUrls jobs = u :: rest →
      PhotosmartService.scanLegacy baseUrl mimeExt post jobs fetchBin
        = Except.ok
            ⟨inferExtension mimeExt (fetchBin (baseUrl ++ u)).contentType,
             (fetchBin (baseUrl ++ u)).data⟩) := by
  refine ⟨?_, ?_, ?_⟩
  · induction jobs with
    | nil => rfl
    | cons j js ih =>
      have step : PhotosmartService.fetchIncompleteBinaryUrls (j :: js)
          = (if j.pageState = "Completed" then
              PhotosmartService.fetchIncompleteBinaryUrls js
            else if j.binaryUrl ≠ "" then
              j.binaryUrl :: PhotosmartService.fetchIncompleteBinaryUrls js
            else PhotosmartService.fetchIncompleteBinaryUrls js) := rfl
      rw [step, ih]
      by_cases h1 : j.pageState = "Completed"
      · simp [h1, List.filter_cons]
      · by_cases h2 : j.binaryUrl = ""
        · simp [h1, h2, List.filter_cons]
        · simp [h1, h2, List.filter_cons]
  · intro hpost hempty
    unfold PhotosmartService.scanLegacy
    rw [if_neg (by simp [hpost]), hempty]
    rfl
  · intro u rest hpost hlist
    unfold PhotosmartService.scanLegacy
    rw [if_neg (by simp [hpost]), hlist]
    rfl

/-- Witness for C5: a job list with a completed entry, a pending entry
with a binary URL, and a pending entry without one yields exactly the one
binary URL, which a 201 POST then fetches; a job list with only a
completed entry fails with the binary-location error. -/
theorem claim_C5_legacy_submitter_witness :
    PhotosmartService.fetchIncompleteBinaryUrls
        [⟨"Completed", "/old"⟩, ⟨"Ready", "/Scan/Binary/1"⟩, ⟨"Ready", ""⟩]
      = ([⟨"Completed", "/old"⟩, ⟨"Ready", "/Scan/Binary/1"⟩,
          (⟨"Ready", ""⟩ : ScanJobEntry)].filter
          (fun j => j.pageState ≠ "Completed" && j.binaryUrl ≠ "")).map
          (fun j => j.binaryUrl) ∧
    PhotosmartService.scanLegacy "http://printer" mimeExtStub
        ⟨201, "Created", none⟩
        [⟨"Completed", "/old"⟩, ⟨"Ready", "/Scan/Binary/1"⟩, ⟨"Ready", ""⟩]
        fetchBinStub
      = Except.ok
          ⟨inferExtension mimeExtStub
              (fetchBinStub ("http://printer" ++ "/Scan/Binary/1")).contentType,
           (fetchBinStub ("http://printer" ++ "/Scan/Binary/1")).data⟩ ∧
    PhotosmartService.scanLegacy "http://printer" mimeExtStub
        ⟨201, "Created", none⟩ [⟨"Completed", "/old"⟩] fetchBinStub
      = Except.error "Binary URL could not be determined" :=
  ⟨(claim_C5_legacy_submitter "http://printer" mimeExtStub
      ⟨201, "Created", none⟩
      [⟨"Completed", "/old"⟩, ⟨"Ready", "/Scan/Binary/1"⟩, ⟨"Ready", ""⟩]
      fetchBinStub).1,
   (claim_C5_legacy_submitter "http://printer" mimeExtStub
      ⟨201, "Created", none⟩
      [⟨"Completed", "/old"⟩, ⟨"Ready", "/Scan/Binary/1"⟩, ⟨"Ready", ""⟩]
      fetchBinStub).2.2 "/Scan/Binary/1" [] rfl (by decide),
   (claim_C5_legacy_submitter "http://printer" mimeExtStub
      ⟨201, "Created", none⟩ [⟨"Completed", "/old"⟩]
      fetchBinStub).2.1 rfl (by decide)⟩

/-- C9: For every quality in [0, 100], the legacy job encoder embeds a
`CompressionQFactor` element whose content is exactly `100 - quality`. -/
theorem claim_C9_compression_factor (options : PhotosmartScanOptionsReq)
    (h0 : 0 ≤ options.quality) (h1 : options.quality ≤ 100) :
    ∃ pre post, PhotosmartService.createScanJob options
      = pre ++ ("<scan:CompressionQFactor>"
          ++ toString (100 - options.quality)
          ++ "</scan:CompressionQFactor>") ++ post := by
  refine ⟨"<scan:ScanJob xmlns:scan=\"http://www.hp.com/schemas/imaging/con/cnx/scan/2008/08/19\" xmlns:dd=\"http://www.hp.com/schemas/imaging/con/dictionaries/1.0/\"> "
    ++ xmlElement "scan:XResolution" (toString options.resolution) ++ " "
    ++ xmlElement "scan:YResolution" (toString options.resolution) ++ " "
    ++ xmlElement "scan:XStart" "0" ++ " "
    ++ xmlElement "scan:YStart" "0" ++ " "
    ++ xmlElement "scan:Width" (toString options.dimension.width) ++ " "
    ++ xmlElement "scan:Height" (toString options.dimension.height) ++ " "
    ++ xmlElement "scan:Format"
        (if options.type = "PDF" then "Pdf" else "Jpeg") ++ " ",
    " " ++ xmlElement "scan:ColorSpace"
        (if options.colorMode = "Color" then "Color" else "Gray") ++ " "
    ++ xmlElement "scan:BitDepth" "8" ++ " "
    ++ xmlElement "scan:InputSource" "Platen" ++ " "
    ++ xmlElement "scan:GrayRendering" "NTSC" ++ " "
    ++ "<scan:ToneMap> "
    ++ xmlElement "scan:Gamma" "1000" ++ " "
    ++ xmlElement "scan:Brightness" "800" ++ " "
    ++ xmlElement "scan:Contrast" "800" ++ " "
    ++ xmlElement "scan:Highlite" "179" ++ " "
    ++ xmlElement "scan:Shadow" "25" ++ " "
    ++ "</scan:ToneMap> "
    ++ xmlElement "scan:ContentType"
        (if options.type = "PDF" then "Document" else "Photo") ++ " "
    ++ "</scan:ScanJob>", ?_⟩
  have hmerge : ∀ s : String,
      ("</scan:CompressionQFactor>" : String) ++ (" " ++ s)
        = "</scan:CompressionQFactor> " ++ s := by
    intro s
    rw [← String.append_assoc]
    rfl
  unfold PhotosmartService.createScanJob xmlElement
  simp [String.append_assoc, hmerge]

/-- Witness for C9 at quality 65: the emitted body contains
`<scan:CompressionQFactor>35</scan:CompressionQFactor>`. -/
theorem claim_C9_compression_factor_witness :
    ∃ pre post,
      PhotosmartService.createScanJob ⟨300, ⟨2480, 3508⟩, "JPEG", 65, "Color"⟩
        = pre ++ ("<scan:CompressionQFactor>" ++ toString ((100 : Int) - 65)
            ++ "</scan:CompressionQFactor>") ++ post :=
  claim_C9_compression_factor ⟨300, ⟨2480, 3508⟩, "JPEG", 65, "Color"⟩
    (by decide) (by decide)

/-- C10: When the form omits `type` and the device is idle, the
service-level normalization defaults the format to `PDF`, so a failing
eSCL submitter is fatal with no legacy fallback — yet the API's failure
message reads `Failed to scan photo`, because it is computed from the raw
unnormalized form value (`null ≠ 'PDF'`) rather than the normalized
format. -/
theorem claim_C10_photo_message
    (escl legacy : PhotosmartScanOptionsReq → Except String PhotosmartScanResult)
    (saveOk : Bool) (form : FormInput) (hType : form.type = none)
    (e : String)
    (hEscl : escl (normalizeOptions (apiOptions form)) = Except.error e) :
    (normalizeOptions (apiOptions form)).type = "PDF" ∧
    (apiScan (some "Idle") escl legacy saveOk form).2.legacyCalls = 0 ∧
    (apiScan (some "Idle") escl legacy saveOk form).1
      = ⟨false, "Failed to scan photo"⟩ := by
  have hPdf : (normalizeOptions (apiOptions form)).type = "PDF" := by
    simp [normalizeOptions, apiOptions, hType]
  have hGate : ¬ ((some "Idle" : Option String) ≠ some "Idle") := by simp
  have hRun : PhotosmartService.scan escl legacy (apiOptions form)
      = ⟨1, 0, Except.error e⟩ := by
    rw [serviceScan_eq, hEscl]
    dsimp only
    rw [if_pos hPdf]
  refine ⟨hPdf, ?_, ?_⟩
  · unfold apiScan
    rw [if_neg hGate, hRun]
  · unfold apiScan
    rw [if_neg hGate, hRun]
    simp [hType]

/-- Witness for C10: the empty form with a failing eSCL stub yields the
`photo` message while the normalized type is `PDF` and the legacy
submitter is never invoked. -/
theorem claim_C10_photo_message_witness :
    (normalizeOptions (apiOptions emptyForm)).type = "PDF" ∧
    (apiScan (some "Idle") esclFailStub legacyOkStub true emptyForm).2.legacyCalls
      = 0 ∧
    (apiScan (some "Idle") esclFailStub legacyOkStub true emptyForm).1
      = ⟨false, "Failed to scan photo"⟩ :=
  claim_C10_photo_message esclFailStub legacyOkStub true emptyForm rfl
    "escl down" rfl
